import Mathlib

/-!
Verification of the F1 OpenF1 proxy/insight server.

The definitions below are a shallow embedding of the pure computational
core of `final.js` and of the consolidated-insights server file
(driver-scoped race-control filtering, position-change computation).
Network fetches are modelled by passing the fetched payloads as explicit
arguments; JavaScript strings are modelled over their character lists
with ASCII case semantics (all data handled by the server is ASCII);
JavaScript `null`/`undefined` fields are modelled with `Option`, and the
relevant truthiness checks (`""` and `0` are falsy) are spelled out at
each use site.
-/

/-! ## JavaScript string primitives -/

/-- `c.toLowerCase()` on one character (ASCII range, the only range the
server's data uses). -/
def jsLowerChar (c : Char) : Char :=
  if 65 ≤ c.toNat && c.toNat ≤ 90 then Char.ofNat (c.toNat + 32) else c

/-- `c.toUpperCase()` on one character (ASCII range). -/
def jsUpperChar (c : Char) : Char :=
  if 97 ≤ c.toNat && c.toNat ≤ 122 then Char.ofNat (c.toNat - 32) else c

/-- The whitespace class used by `String.prototype.trim` and the regex
class `\s` (ASCII part: space, tab, LF, VT, FF, CR). -/
def isJsSpace (c : Char) : Bool :=
  c = ' ' || c = '\t' || c = '\n' || c = '\x0b' || c = '\x0c' || c = '\r'

/-- The regex word-character class `\w` = `[A-Za-z0-9_]`, used by the
word-boundary assertion `\b`. -/
def jsWordChar (c : Char) : Bool :=
  (48 ≤ c.toNat && c.toNat ≤ 57) || (65 ≤ c.toNat && c.toNat ≤ 90) ||
    (97 ≤ c.toNat && c.toNat ≤ 122) || c = '_'

/-- `s.trim()` on a character list: drop leading and trailing whitespace. -/
def trimList (l : List Char) : List Char :=
  ((l.dropWhile isJsSpace).reverse.dropWhile isJsSpace).reverse

def jsLower (s : String) : String := ⟨s.data.map jsLowerChar⟩

def jsUpper (s : String) : String := ⟨s.data.map jsUpperChar⟩

def jsTrim (s : String) : String := ⟨trimList s.data⟩

/-- Does the character list start with `pat`? -/
def leadsWith : List Char → List Char → Bool
  | [], _ => true
  | _ :: _, [] => false
  | p :: ps, c :: cs => p == c && leadsWith ps cs

/-- Does `pat` occur as a contiguous run somewhere in the list? -/
def hasSubstr (pat : List Char) : List Char → Bool
  | [] => pat.isEmpty
  | c :: rest => leadsWith pat (c :: rest) || hasSubstr pat rest

/-- `hay.includes(pat)` for JavaScript strings. -/
def strIncludes (hay pat : String) : Bool := hasSubstr pat.data hay.data

/-! ## Location normalizer — `normalizeString` (final.js line 154)

`str ? str.replace(/[_\-]/g, " ").toUpperCase().replace(/[^A-Z\s]/g, "").trim() : ""`
-/

/-- Step (a): `replace(/[_\-]/g, " ")`. -/
def underscoreToSpace (c : Char) : Char :=
  if c = '_' || c = '-' then ' ' else c

/-- `[A-Z]` membership, the class kept by `replace(/[^A-Z\s]/g, "")`. -/
def isUpperAZ (c : Char) : Bool := 65 ≤ c.toNat && c.toNat ≤ 90

/-- The character-list pipeline of `normalizeString`: replace `_`/`-` by
spaces, upper-case, strip everything that is neither `A`–`Z` nor
whitespace, then trim. -/
def normList (l : List Char) : List Char :=
  trimList (((l.map underscoreToSpace).map jsUpperChar).filter
    (fun c => isUpperAZ c || isJsSpace c))

/-- `normalizeString` from final.js; the argument is `Option` because the
callers may pass `undefined`, and the JS conditional `str ? … : ""` also
sends the (falsy) empty string to `""`. -/
def normalizeString (s : Option String) : String :=
  match s with
  | none => ""
  | some str => if str = "" then "" else ⟨normList str.data⟩

/-! ## Session-type mapping — `mapSessionType` (final.js lines 129–133) -/

/-- The literal key/value table of `mapSessionType`. -/
def sessionTypeMap : List (String × String) :=
  [("R", "Race"), ("Q", "Qualifying"), ("FP1", "Practice 1"),
   ("FP2", "Practice 2"), ("FP3", "Practice 3"), ("S", "Sprint"),
   ("RACE", "Race"), ("QUALIFYING", "Qualifying")]

/-- `mapSessionType` from final.js: `if (!type) return "Race"` (absent or
empty input), then `map[type.toUpperCase().trim()] || "Race"`. -/
def mapSessionType (ty : Option String) : String :=
  match ty with
  | none => "Race"
  | some t =>
    if t = "" then "Race"
    else (sessionTypeMap.lookup (jsTrim (jsUpper t))).getD "Race"

/-! ## Month filtering — `filterByMonth` (final.js lines 107–113) -/

/-- A JavaScript `Date` value as consumed by this code: its epoch
milliseconds (`getTime`, used for ordering) and its UTC month
(`getUTCMonth`, `0`–`11`). -/
structure JSDate where
  ms : Int
  utcMonth : Nat
deriving DecidableEq, Repr

/-- An upstream session record, with the fields `getSessionKey` and
`filterByMonth` consume. `date_start` is `none` when the field is
absent/null (the code's truthiness test `item.date_start &&` filters
those out; date strings are never empty when present). -/
structure Session where
  session_key : Nat
  date_start : Option JSDate
deriving DecidableEq, Repr

/-- The literal `monthMap` of `filterByMonth`. -/
def monthMap : List (String × Nat) :=
  [("jan", 0), ("january", 0), ("01", 0), ("1", 0),
   ("feb", 1), ("february", 1), ("02", 1), ("2", 1),
   ("mar", 2), ("march", 2), ("03", 2), ("3", 2),
   ("apr", 3), ("april", 3), ("04", 3), ("4", 3),
   ("may", 4), ("05", 4), ("5", 4),
   ("jun", 5), ("june", 5), ("06", 5), ("6", 5),
   ("jul", 6), ("july", 6), ("07", 6), ("7", 6),
   ("aug", 7), ("august", 7), ("08", 7), ("8", 7),
   ("sep", 8), ("september", 8), ("09", 8), ("9", 8),
   ("oct", 9), ("october", 9), ("10", 9),
   ("nov", 10), ("november", 10), ("11", 10),
   ("dec", 11), ("december", 11), ("12", 11)]

/-- `monthMap` is a plain object literal, so `monthMap[key]` walks the
prototype chain.  The key is lowercased, and among the inherited
`Object.prototype` property names exactly `constructor` and `__proto__`
are all-lowercase (names such as `toString`, `valueOf` or
`hasOwnProperty` contain upper-case letters a lowercased key cannot
produce), so exactly these two inherited names are reachable. -/
def protoChainHit (key : String) : Bool :=
  key == "constructor" || key == "__proto__"

/-- The value of `monthMap[key]`: `some (some n)` for a genuine table
entry, `some none` for a value inherited from `Object.prototype` (a
function/object, not a month number), `none` for `undefined`. -/
def monthMapGet (key : String) : Option (Option Nat) :=
  match monthMap.lookup key with
  | some n => some (some n)
  | none => if protoChainHit key then some none else none

/-- `filterByMonth` from final.js.  `!monthInput` (empty string) returns
the data unchanged; `targetMonth === undefined` returns the data
unchanged; otherwise keep items whose `date_start` is present and whose
UTC month strictly equals `targetMonth` — an equality that can never
hold when `targetMonth` is an inherited non-number value, so those keys
filter every item out. -/
def filterByMonth (data : List Session) (monthInput : String) : List Session :=
  if monthInput = "" then data
  else
    match monthMapGet (jsTrim (jsLower monthInput)) with
    | none => data
    | some target =>
      data.filter (fun item =>
        match item.date_start, target with
        | some d, some t => d.utcMonth == t
        | _, _ => false)

/-! ## Session selection — `getSessionKey` (final.js lines 204–223)

The upstream query result (`/v1/sessions` filtered by year, country and
session name) is passed in as `sessions`; `countryToQuery` is the string
the resolver settled on.  `sessions.sort((a, b) => new Date(a.date_start)
- new Date(b.date_start))` is a stable ascending sort, modelled by
`List.insertionSort` (the canonical stable sort; ECMAScript mandates sort
stability). -/

def sessionTime (s : Session) : Int := (s.date_start.map JSDate.ms).getD 0

def sessionAsc (a b : Session) : Prop := sessionTime a ≤ sessionTime b

instance : DecidableRel sessionAsc := fun a b => Int.decLe (sessionTime a) (sessionTime b)

/-- `sessions[sessions.length - 1].session_key` after the ascending sort;
only ever applied to non-empty lists (`getD 0` is unreachable there). -/
def latestSessionKey (sessions : List Session) : Nat :=
  (((sessions.insertionSort sessionAsc).getLast?).map Session.session_key).getD 0

/-- The survivors of the optional month filter (`if (month)`: falsy month
values — absent or empty — skip the filter). -/
def monthSurvivors (sessions : List Session) (month : Option String) : List Session :=
  match month with
  | some m => if m = "" then sessions else filterByMonth sessions m
  | none => sessions

/-- `getSessionKey` from final.js, as a function of the fetched candidate
list.  Both thrown errors are re-wrapped by the surrounding `catch` as
`Failed to locate session: <message>`. -/
def getSessionKey (sessions : List Session) (countryToQuery : String)
    (sessionType : Option String) (year : Nat) (month : Option String) :
    Except String Nat :=
  let openF1Type := mapSessionType sessionType
  if sessions.isEmpty then
    .error ("Failed to locate session: Session not found for '" ++ countryToQuery ++
      "' and '" ++ openF1Type ++ "' in year " ++ toString year ++ ".")
  else
    let survivors := monthSurvivors sessions month
    if survivors.isEmpty then
      .error ("Failed to locate session: No sessions found in " ++ month.getD "" ++
        " for " ++ countryToQuery ++ " in year " ++ toString year ++ ".")
    else .ok (latestSessionKey survivors)

/-! ## Driver resolution — `resolveDriverNumber` (final.js lines 226–248) -/

/-- A roster entry as consumed by the resolvers.  Fields are `Option`
because upstream records may lack them; the code guards each one with a
truthiness test (`""` and `0` are falsy). -/
structure Driver where
  name_acronym : Option String
  driver_number : Option Nat
  last_name : Option String
  full_name : Option String
deriving DecidableEq, Repr

/-- `driverInput.toString().toLowerCase().trim()`. -/
def driverNeedle (driverInput : String) : String := jsTrim (jsLower driverInput)

/-- The per-entry test inside `drivers.find(...)`: acronym equals the
needle, or the car number's decimal string equals the needle, or the
lowercased surname contains the needle, or the lowercased full name
contains the needle — each guarded by the field's truthiness. -/
def driverMatches (needle : String) (d : Driver) : Bool :=
  (match d.name_acronym with
   | some a => a != "" && jsLower a == needle
   | none => false) ||
  (match d.driver_number with
   | some n => n != 0 && toString n == needle
   | none => false) ||
  (match d.last_name with
   | some s => s != "" && strIncludes (jsLower s) needle
   | none => false) ||
  (match d.full_name with
   | some s => s != "" && strIncludes (jsLower s) needle
   | none => false)

/-- `resolveDriverNumber` as a function of the fetched roster.
`if (!driverInput) return null`; on a match, `return match.driver_number`
(which is itself absent if the matched record lacks the field). -/
def resolveDriverNumber (drivers : List Driver) (driverInput : String) : Option Nat :=
  if driverInput = "" then none
  else (drivers.find? (driverMatches (driverNeedle driverInput))).bind Driver.driver_number

/-- A roster entry with every field present and truthy (the shape real
upstream rosters have). -/
def driverComplete (d : Driver) : Bool :=
  (match d.name_acronym with | some a => a != "" | none => false) &&
  (match d.driver_number with | some n => n != 0 | none => false) &&
  (match d.last_name with | some s => s != "" | none => false) &&
  (match d.full_name with | some s => s != "" | none => false)

/-- Modelled from the spec's words (§4.4), for comparison with the code's
`driverMatches`: "acronym equals the token exactly; car number (as string)
equals the token exactly; surname contains the token as a substring; full
name contains the token as a substring". -/
def specDriverMatch (needle : String) (d : Driver) : Bool :=
  jsLower (d.name_acronym.getD "") == needle ||
  toString (d.driver_number.getD 0) == needle ||
  strIncludes (jsLower (d.last_name.getD "")) needle ||
  strIncludes (jsLower (d.full_name.getD "")) needle

/-! ## Location map building — `fetchAndBuildLocationMap` (final.js
lines 156–188) -/

/-- An upstream meeting record (fields consumed by the enrichment loop). -/
structure Meeting where
  country_name : String
  location : Option String
  meeting_name : Option String
deriving DecidableEq, Repr

/-- `Map.prototype.set`: overwrite the value in place when the key exists,
otherwise append the new pair. -/
def mapSet (m : List (String × String)) (k v : String) : List (String × String) :=
  if m.any (fun p => p.1 == k) then
    m.map (fun p => if p.1 == k then (k, v) else p)
  else m ++ [(k, v)]

/-- `Map.prototype.has`. -/
def containsKey (m : List (String × String)) (k : String) : Bool :=
  m.any (fun p => p.1 == k)

/-- `s.split(/\s+/)[0]`: the leading run of non-whitespace characters
(empty — and hence falsy — when `s` starts with whitespace). -/
def firstToken (s : String) : String := ⟨s.data.takeWhile (fun c => !isJsSpace c)⟩

/-- The static default alias table the map is seeded with (final.js
lines 158–169). -/
def staticDefaultAliases : List (String × String) :=
  [("ABU DHABI", "United Arab Emirates"), ("ABUDHABI", "United Arab Emirates"),
   ("YAS MARINA", "United Arab Emirates"), ("YASMARINA", "United Arab Emirates"),
   ("UAE", "United Arab Emirates"),
   ("SILVERSTONE", "Great Britain"), ("BRITISH", "Great Britain"), ("UK", "Great Britain"),
   ("SPA", "Belgium"), ("SPA FRANCORCHAMPS", "Belgium"),
   ("MONZA", "Italy"), ("IMOLA", "Italy"), ("MONACO", "Monaco"),
   ("BAKU", "Azerbaijan"), ("AZERBAIJAN", "Azerbaijan"),
   ("COTA", "United States"), ("AUSTIN", "United States"), ("MIAMI", "United States"),
   ("LAS VEGAS", "United States"), ("LASVEGAS", "United States"), ("VEGAS", "United States"),
   ("USA", "United States"), ("US", "United States"),
   ("MEXICO", "Mexico"), ("MEXICO CITY", "Mexico"), ("MEXICOCITY", "Mexico"),
   ("INTERLAGOS", "Brazil"), ("SAO PAULO", "Brazil"), ("SAOPAULO", "Brazil"),
   ("BRAZIL", "Brazil"),
   ("SUZUKA", "Japan"), ("JAPAN", "Japan"),
   ("JEDDAH", "Saudi Arabia"), ("SAUDI", "Saudi Arabia"),
   ("BAHRAIN", "Bahrain"), ("SAKHIR", "Bahrain"),
   ("MELBOURNE", "Australia"), ("AUSTRALIA", "Australia"),
   ("MONTREAL", "Canada"), ("CANADA", "Canada"),
   ("BARCELONA", "Spain"), ("SPAIN", "Spain"),
   ("ZANDVOORT", "Netherlands"), ("DUTCH", "Netherlands"),
   ("HUNGARORING", "Hungary"), ("HUNGARY", "Hungary"),
   ("RED BULL RING", "Austria"), ("REDBULLRING", "Austria"),
   ("AUSTRIA", "Austria"), ("SPIELBERG", "Austria"),
   ("SINGAPORE", "Singapore"), ("MARINA BAY", "Singapore"), ("MARINABAY", "Singapore"),
   ("QATAR", "Qatar"), ("LUSAIL", "Qatar"),
   ("CHINA", "China"), ("SHANGHAI", "China")]

/-- The `forEach` body: register aliases for the country name, the venue
location, the meeting name and the meeting name's first token, each
mapped to the meeting's country (the `if (m.location)` /
`if (m.meeting_name)` / first-token guards are truthiness tests). -/
def registerMeeting (m : List (String × String)) (mt : Meeting) :
    List (String × String) :=
  let m1 := mapSet m (normalizeString (some mt.country_name)) mt.country_name
  let m2 :=
    match mt.location with
    | some loc => if loc = "" then m1
        else mapSet m1 (normalizeString (some loc)) mt.country_name
    | none => m1
  match mt.meeting_name with
  | some name =>
    if name = "" then m2
    else
      let m3 := mapSet m2 (normalizeString (some name)) mt.country_name
      let tok := firstToken name
      if tok = "" then m3
      else mapSet m3 (normalizeString (some tok)) mt.country_name
  | none => m2

/-- One call to `fetchAndBuildLocationMap` for `year`.  `cache` is the
process-wide `meetingsCache`; `response` is the `/v1/meetings` payload,
`none` when the fetch failed (the `catch` path keeps the static
defaults).  The cache is written only on a successful fetch with a
non-empty meeting list.  Returns the map handed to the caller together
with the updated cache. -/
def fetchAndBuildLocationMap (cache : List (Nat × List (String × String)))
    (year : Nat) (response : Option (List Meeting)) :
    List (String × String) × List (Nat × List (String × String)) :=
  match cache.lookup year with
  | some m => (m, cache)
  | none =>
    match response with
    | none => (staticDefaultAliases, cache)
    | some ms =>
      if ms.isEmpty then (staticDefaultAliases, cache)
      else
        let m := ms.foldl registerMeeting staticDefaultAliases
        (m, (year, m) :: cache)

/-! ## Race-control strict driver filtering — `race_control_summary`
(consolidated-insights server, driver-filter stage, lines 244–303) -/

/-- A race-control message (fields consumed by the driver-filter stage). -/
structure RCMessage where
  driver_number : Option Nat
  message : Option String
  category : Option String
  flag : Option String
deriving DecidableEq, Repr

/-- `m.message ? m.message.toLowerCase() : ""` (empty strings are falsy). -/
def rcMsgLower (m : RCMessage) : String :=
  match m.message with
  | some s => if s = "" then "" else jsLower s
  | none => ""

/-- One anchored attempt of a `\b<pat>\b` search: `pat` starts here, the
character just before this position (if any) is not a word character, and
the character just after the matched run (if any) is not a word
character.  (This is the word-boundary semantics for a pattern that
starts and ends with word characters, as `car <digits>` does.) -/
def wordAnchoredAt (pat : List Char) (prev : Option Char) (s : List Char) : Bool :=
  leadsWith pat s &&
  (match prev with | some c => !jsWordChar c | none => true) &&
  (match s.drop pat.length with | c :: _ => !jsWordChar c | [] => true)

/-- `\b<pat>\b` regex search: try every position, tracking the previous
character for the left boundary. -/
def wordBoundarySearch (pat : List Char) : Option Char → List Char → Bool
  | prev, [] => wordAnchoredAt pat prev []
  | prev, c :: rest =>
    wordAnchoredAt pat prev (c :: rest) || wordBoundarySearch pat (some c) rest

/-- `msgLower.match(new RegExp(`\bcar ${driverNum}\b`))` as a Boolean. -/
def carRegexMatch (driverNum : Nat) (msgLower : String) : Bool :=
  wordBoundarySearch ("car " ++ toString driverNum).data none msgLower.data

/-- The global-event keyword allowlist (line 290). -/
def globalKeywords : List String :=
  ["safety car", "virtual safety car", "red flag", "chequered flag",
   "drs enabled", "drs disabled", "green light", "track clear"]

/-- The global-event category allowlist (line 293). -/
def globalCats : List String := ["safetycar", "virtualsafetycar", "redflag", "drs"]

/-- The flag values allowed through the `Flag` category (line 297). -/
def globalFlagValues : List String := ["green", "chequered", "red", "yellow"]

/-- Route B of the filter: is the message a recognized global/session-wide
event?  Keyword in the lowercased text, category code in the allowlist,
or a `flag` category carrying one of the allowed flag values
(`m.category?.toLowerCase()` / `m.flag?.toLowerCase()` are `undefined`
when the field is absent, and match nothing). -/
def isGlobalRCEvent (m : RCMessage) : Bool :=
  let msgLower := rcMsgLower m
  globalKeywords.any (fun kw => strIncludes msgLower kw) ||
  (match m.category with
   | some c => globalCats.contains (jsLower c)
   | none => false) ||
  (match m.category with
   | some c => jsLower c == "flag" &&
      (match m.flag with
       | some f => globalFlagValues.contains (jsLower f)
       | none => false)
   | none => false)

/-- Truthiness of `m.driver_number` (`!m.driver_number` in line 289:
absent, null and `0` are falsy). -/
def rcDriverTruthy (m : RCMessage) : Bool :=
  match m.driver_number with
  | some n => n != 0
  | none => false

/-- Route A of the filter, the source's `isTargetDriverEvent` (lines
277–283): driver-number field equality, whole-word `car <number>`
textual match, `(acronym)` occurrence, or surname occurrence in the
lowercased text.  `dAcronym` and `dName` are the resolved driver's
lowercased acronym and surname. -/
def rcTargetDriverEvent (driverNum : Nat) (dAcronym dName : String)
    (m : RCMessage) : Bool :=
  (m.driver_number == some driverNum) ||
  carRegexMatch driverNum (rcMsgLower m) ||
  strIncludes (rcMsgLower m) ("(" ++ dAcronym ++ ")") ||
  strIncludes (rcMsgLower m) dName

/-- The per-message predicate of the strict driver filter (lines 274–302):
part A retains the message; failing that, part B retains it only when it
has no (truthy) driver attribution and is a recognized global event. -/
def rcKeep (driverNum : Nat) (dAcronym dName : String) (m : RCMessage) : Bool :=
  if rcTargetDriverEvent driverNum dAcronym dName m then true
  else if !rcDriverTruthy m then isGlobalRCEvent m
  else false

/-- The driver-filter stage of `race_control_summary`: resolve the driver
against the roster exactly as `resolveDriverNumber` does (the handler
inlines the same `find`), fail if no roster entry matches, otherwise
filter the fetched messages with `rcKeep`.  An absent/empty
`driverInput` (`if (body.driver)`) leaves the messages untouched.  The
resolved entry's `driver_number`, acronym and surname are read without
guards in the source (a roster entry lacking them would crash the
request); the `getD` defaults are never exercised on complete rosters. -/
def race_control_driver_stage (drivers : List Driver) (driverInput : Option String)
    (messages : List RCMessage) : Except String (List RCMessage) :=
  match driverInput with
  | none => .ok messages
  | some di =>
    if di = "" then .ok messages
    else
      match drivers.find? (driverMatches (driverNeedle di)) with
      | none => .error ("Driver '" ++ di ++ "' not found in this session.")
      | some info =>
        .ok (messages.filter (rcKeep (info.driver_number.getD 0)
          (jsLower (info.name_acronym.getD ""))
          (jsLower (info.last_name.getD ""))))

/-! ## Position change between laps — `position_change_summary`
(consolidated-insights server, lines 469–498, lap branch) -/

/-- A lap record (fields consumed by `getLeaderboard`).  `date_start` is
the record's epoch milliseconds (`new Date(l.date_start).getTime()`);
`lap_duration` is in seconds.  The JS values are numbers; only `+`, `*`
and comparisons are applied to them, so an integer embedding carries over
the ranking logic verbatim.  `none` models an absent/null field; a `0`
duration is falsy in the validity test. -/
structure Lap where
  driver_number : Nat
  lap_number : Nat
  date_start : Option Int
  lap_duration : Option Int
deriving DecidableEq, Repr

/-- `l.lap_number === lapNum && l.date_start && l.lap_duration`. -/
def lapValid (lapNum : Nat) (l : Lap) : Bool :=
  l.lap_number == lapNum && l.date_start.isSome &&
  (match l.lap_duration with | some d => d != 0 | none => false)

/-- `new Date(l.date_start).getTime() + (l.lap_duration * 1000)` (the
defaults are unreachable after `lapValid`). -/
def lapFinishTime (l : Lap) : Int :=
  l.date_start.getD 0 + l.lap_duration.getD 0 * 1000

/-- `getLeaderboard` (lines 474–480): filter the lap's valid records,
rank ascending by finish time (stable sort), and assign positions
1, 2, … in sorted order.  `posMap` is a JS object keyed by driver
number; represented as the association list of assignments in order. -/
def getLeaderboard (allLaps : List Lap) (lapNum : Nat) : List (Nat × Nat) :=
  let withFinish := (allLaps.filter (lapValid lapNum)).map
    (fun l => (l.driver_number, lapFinishTime l))
  let sorted := withFinish.insertionSort (fun a b => a.2 ≤ b.2)
  sorted.enum.map (fun p => (p.2.1, p.1 + 1))

/-- Reading `posMap[d]` from the assignment list: the last write wins
(JS object assignment overwrites). -/
def posLookup (posMap : List (Nat × Nat)) (d : Nat) : Option Nat :=
  (posMap.reverse.find? (fun p => p.1 == d)).map Prod.snd

/-- `Object.keys` of a numerically-keyed JS object: the distinct keys in
ascending numeric order. -/
def jsIntKeys (posMap : List (Nat × Nat)) : List Nat :=
  ((posMap.map Prod.fst).dedup).insertionSort (fun a b => a ≤ b)

/-- One row of the `changes` array (numeric core; the handler also
attaches the acronym and a GAINED/LOST/SAME label derived from
`positions_gained`). -/
structure PositionChange where
  driver_number : Nat
  lap_start_pos : Nat
  lap_end_pos : Nat
  positions_gained : Int
deriving DecidableEq, Repr

/-- The lap branch of `position_change_summary` (no per-driver filter):
`if (currentLapNum <= 1) throw`; build both leaderboards; for every
driver key of the current leaderboard present in both maps push
`positions_gained = posPrev − posCurrent`; sort descending by gain
(stable). -/
def position_change_lap (allLaps : List Lap) (lapNumber : Nat) :
    Except String (List PositionChange) :=
  if lapNumber ≤ 1 then .error "Cannot calculate changes for Lap 1."
  else
    let posCurrent := getLeaderboard allLaps lapNumber
    let posPrev := getLeaderboard allLaps (lapNumber - 1)
    let changes := (jsIntKeys posCurrent).filterMap (fun d =>
      match posLookup posPrev d, posLookup posCurrent d with
      | some pp, some pc =>
        some { driver_number := d, lap_start_pos := pp, lap_end_pos := pc,
               positions_gained := (pp : Int) - (pc : Int) }
      | _, _ => none)
    .ok (changes.insertionSort (fun a b => b.positions_gained ≤ a.positions_gained))

/-- The reported gain for one driver, by lookup in the handler's result. -/
def gainedOf (allLaps : List Lap) (lapNumber : Nat) (d : Nat) : Option Int :=
  match position_change_lap allLaps lapNumber with
  | .ok cs => (cs.find? (fun c => c.driver_number == d)).map PositionChange.positions_gained
  | .error _ => none

/-! ## Pit-stop/tyre correlation — `pitstops_summary` (final.js
lines 323–352) -/

/-- A pit-stop record (fields consumed by the handler). -/
structure PitStop where
  driver_number : Nat
  lap_number : Int
  pit_duration : Option Int
deriving DecidableEq, Repr

/-- A tyre-stint record (fields consumed by the handler). -/
structure Stint where
  driver_number : Nat
  lap_start : Int
  lap_end : Int
  compound : Option String
deriving DecidableEq, Repr

/-- The stint lookup for one stop (line 338):
`stints.find(s => s.driver_number === p.driver_number &&
Math.abs(s.lap_start - p.lap_number) <= 1)`. -/
def pitStintJoin (stints : List Stint) (p : PitStop) : Option Stint :=
  stints.find? (fun s =>
    s.driver_number == p.driver_number && (s.lap_start - p.lap_number).natAbs ≤ 1)

/-- The `tyres_fitted` value reported for one stop: the joined stint's
compound when a stint was found and its compound is truthy, otherwise
`"Unknown"` (`stint ? stint.compound : "Unknown"` followed by
`p.tyre_fitted || "Unknown"` in the output mapping).  `stintsFetched =
none` models the `catch` path where the stints fetch failed. -/
def tyreFitted (stintsFetched : Option (List Stint)) (p : PitStop) : String :=
  match stintsFetched with
  | none => "Unknown"
  | some stints =>
    match pitStintJoin stints p with
    | some s =>
      match s.compound with
      | some c => if c = "" then "Unknown" else c
      | none => "Unknown"
    | none => "Unknown"

/-- One output row of `pitstops_summary` (numeric core; the handler also
replaces the driver number by the roster acronym for display). -/
structure PitRow where
  driver_number : Nat
  lap : Int
  duration : Option Int
  tyres_fitted : String
deriving DecidableEq, Repr

/-- The enrichment and output mapping of `pitstops_summary` over the
(possibly driver-filtered) stop list. -/
def pitstops_rows (targetPits : List PitStop) (stintsFetched : Option (List Stint)) :
    List PitRow :=
  targetPits.map (fun p =>
    { driver_number := p.driver_number, lap := p.lap_number,
      duration := p.pit_duration, tyres_fitted := tyreFitted stintsFetched p })

/-- Modelled from the spec's words (§4.6, pit-stop/tyre correlation), for
comparison with the code's `pitStintJoin`: "the tyre stint whose lap
range contains the stop's lap number within a tolerance of ±1 lap". -/
def specStintJoin (stints : List Stint) (p : PitStop) : Option Stint :=
  stints.find? (fun s =>
    s.driver_number == p.driver_number &&
    s.lap_start - 1 ≤ p.lap_number && p.lap_number ≤ s.lap_end + 1)

/-! ## Concrete fixtures for the testable properties -/

/-- A two-entry roster: Verstappen (car 1) and Stroll (car 18). -/
def rosterEx : List Driver :=
  [{ name_acronym := some "VER", driver_number := some 1,
     last_name := some "Verstappen", full_name := some "Max Verstappen" },
   { name_acronym := some "STR", driver_number := some 18,
     last_name := some "Stroll", full_name := some "Lance Stroll" }]

/-- The claim's synthetic message, with the attribution the claim gives it
(`driver_number: 1`) and the text `"CAR 18 yellow flag"`. -/
def msgCar18Attr1 : RCMessage :=
  { driver_number := some 1, message := some "CAR 18 yellow flag",
    category := some "Flag", flag := some "YELLOW" }

/-- The same text attributed to the car it talks about (driver 18). -/
def msgCar18 : RCMessage :=
  { driver_number := some 18, message := some "CAR 18 yellow flag",
    category := some "Flag", flag := some "YELLOW" }

/-- An undirected message mentioning a driver's surname (not a global
event). -/
def msgUndirSurname : RCMessage :=
  { driver_number := none, message := some "INCIDENT INVOLVING VERSTAPPEN NOTED",
    category := some "Other", flag := none }

/-- An undirected safety-car message (category allowlist). -/
def msgSC : RCMessage :=
  { driver_number := none, message := some "SAFETY CAR DEPLOYED",
    category := some "SafetyCar", flag := none }

/-- An undirected generic blue-flag message. -/
def msgBlue : RCMessage :=
  { driver_number := none, message := some "BLUE FLAG", category := some "Flag",
    flag := some "BLUE" }

/-- Laps for three drivers: lap-1 finish order [1, 2, 3], lap-2 finish
order [2, 1, 3]; driver 4 only appears at lap 1, driver 5 only at lap 2. -/
def exLaps : List Lap :=
  [{ driver_number := 1, lap_number := 1, date_start := some 0, lap_duration := some 1 },
   { driver_number := 2, lap_number := 1, date_start := some 500, lap_duration := some 1 },
   { driver_number := 3, lap_number := 1, date_start := some 1000, lap_duration := some 1 },
   { driver_number := 4, lap_number := 1, date_start := some 1500, lap_duration := some 1 },
   { driver_number := 2, lap_number := 2, date_start := some 1500, lap_duration := some 1 },
   { driver_number := 1, lap_number := 2, date_start := some 1000, lap_duration := some 2 },
   { driver_number := 3, lap_number := 2, date_start := some 2000, lap_duration := some 2 },
   { driver_number := 5, lap_number := 2, date_start := some 3000, lap_duration := some 2 }]

/-- The `changes` list `position_change_lap` produces for `exLaps` at
lap 2 (sorted descending by gain). -/
def csEx : List PositionChange :=
  [{ driver_number := 2, lap_start_pos := 2, lap_end_pos := 1, positions_gained := 1 },
   { driver_number := 3, lap_start_pos := 3, lap_end_pos := 3, positions_gained := 0 },
   { driver_number := 1, lap_start_pos := 1, lap_end_pos := 2, positions_gained := -1 }]

/-- A stint whose lap range [5, 20] contains lap 20, but whose start lap
is 15 laps away from it. -/
def stintEx : Stint :=
  { driver_number := 1, lap_start := 5, lap_end := 20, compound := some "HARD" }

/-- A stint starting one lap after the stop (within the code's tolerance). -/
def stintNear : Stint :=
  { driver_number := 1, lap_start := 21, lap_end := 30, compound := some "SOFT" }

/-- A pit stop by driver 1 at lap 20. -/
def pitEx : PitStop :=
  { driver_number := 1, lap_number := 20, pit_duration := some 24 }

/-- A January session and a March session. -/
def sessJan : Session :=
  { session_key := 101, date_start := some { ms := 1000, utcMonth := 0 } }

def sessMar : Session :=
  { session_key := 202, date_start := some { ms := 9000, utcMonth := 2 } }

/-- The cache invariant of C9: every cached location map contains every
static default alias key. -/
def cacheHasDefaults (cache : List (Nat × List (String × String))) : Prop :=
  ∀ e ∈ cache, ∀ k : String,
    containsKey staticDefaultAliases k = true → containsKey e.2 k = true

/-! ## Helper lemmas -/

theorem map_eq_self_of {α : Type} (f : α → α) :
    ∀ l : List α, (∀ c ∈ l, f c = c) → l.map f = l
  | [], _ => rfl
  | c :: t, h => by
    simp only [List.map_cons]
    rw [h c (by simp), map_eq_self_of f t (fun x hx => h x (by simp [hx]))]

theorem dropWhile_head_false {α : Type} (p : α → Bool) :
    ∀ (l : List α) (c : α) (t : List α), l.dropWhile p = c :: t → p c = false := by
  intro l
  induction l with
  | nil => intro c t h; simp [List.dropWhile] at h
  | cons a l' ih =>
    intro c t h
    rw [List.dropWhile_cons] at h
    by_cases hpa : p a = true
    · rw [if_pos hpa] at h; exact ih c t h
    · rw [if_neg hpa] at h
      obtain ⟨rfl, _⟩ := List.cons.inj h
      exact Bool.eq_false_iff.mpr hpa

theorem dropWhile_idem {α : Type} (p : α → Bool) (l : List α) :
    (l.dropWhile p).dropWhile p = l.dropWhile p := by
  cases h : l.dropWhile p with
  | nil => rfl
  | cons c t =>
    rw [List.dropWhile_cons, if_neg]
    rw [dropWhile_head_false p l c t h]
    simp

theorem dropWhile_suffix_decomp {α : Type} (p : α → Bool) :
    ∀ l : List α, ∃ s, s ++ l.dropWhile p = l := by
  intro l
  induction l with
  | nil => exact ⟨[], rfl⟩
  | cons a l' ih =>
    rw [List.dropWhile_cons]
    by_cases hpa : p a = true
    · obtain ⟨s, hs⟩ := ih
      exact ⟨a :: s, by simp [if_pos hpa, hs]⟩
    · exact ⟨[], by simp [if_neg hpa]⟩

theorem trimList_idem (l : List Char) : trimList (trimList l) = trimList l := by
  have hA : (trimList l).dropWhile isJsSpace = trimList l := by
    obtain ⟨s, hs⟩ := dropWhile_suffix_decomp isJsSpace (l.dropWhile isJsSpace).reverse
    have hu : trimList l ++ s.reverse = l.dropWhile isJsSpace := by
      have h2 := congrArg List.reverse hs
      simpa [trimList, List.reverse_append] using h2
    cases ht : trimList l with
    | nil => rfl
    | cons c t' =>
      have hc : isJsSpace c = false := by
        apply dropWhile_head_false isJsSpace l c (t' ++ s.reverse)
        rw [← hu, ht]; simp
      simp [List.dropWhile_cons, hc]
  show ((((trimList l).dropWhile isJsSpace).reverse).dropWhile isJsSpace).reverse = trimList l
  rw [hA]
  have hB : (trimList l).reverse.dropWhile isJsSpace = (trimList l).reverse := by
    have hrev : (trimList l).reverse = ((l.dropWhile isJsSpace).reverse).dropWhile isJsSpace := by
      unfold trimList; rw [List.reverse_reverse]
    rw [hrev, dropWhile_idem]
  rw [hB, List.reverse_reverse]

theorem mem_trimList {c : Char} {l : List Char} (h : c ∈ trimList l) : c ∈ l := by
  unfold trimList at h
  rw [List.mem_reverse] at h
  have h1 := List.Sublist.mem h (List.dropWhile_sublist isJsSpace)
  rw [List.mem_reverse] at h1
  exact List.Sublist.mem h1 (List.dropWhile_sublist isJsSpace)

theorem normList_chars {c : Char} {l : List Char} (h : c ∈ normList l) :
    (isUpperAZ c || isJsSpace c) = true := by
  unfold normList at h
  have h2 : c ∈ List.filter (fun c => isUpperAZ c || isJsSpace c)
      (List.map jsUpperChar (List.map underscoreToSpace l)) := mem_trimList h
  simpa using List.of_mem_filter h2

theorem underscore_fix (c : Char) (h : (isUpperAZ c || isJsSpace c) = true) :
    underscoreToSpace c = c := by
  rw [Bool.or_eq_true] at h
  cases h with
  | inl h =>
    unfold isUpperAZ at h
    rw [Bool.and_eq_true, decide_eq_true_eq, decide_eq_true_eq] at h
    unfold underscoreToSpace
    rw [if_neg]
    intro hc
    rw [Bool.or_eq_true, decide_eq_true_eq, decide_eq_true_eq] at hc
    cases hc with
    | inl hc => subst hc; exact absurd h.2 (by decide)
    | inr hc => subst hc; exact absurd h.1 (by decide)
  | inr h =>
    have h6 : c = ' ' ∨ c = '\t' ∨ c = '\n' ∨ c = '\x0b' ∨ c = '\x0c' ∨ c = '\r' := by
      unfold isJsSpace at h
      simp only [Bool.or_eq_true, decide_eq_true_eq] at h
      tauto
    rcases h6 with h | h | h | h | h | h <;> subst h <;> decide

theorem upper_fix (c : Char) (h : (isUpperAZ c || isJsSpace c) = true) :
    jsUpperChar c = c := by
  rw [Bool.or_eq_true] at h
  cases h with
  | inl h =>
    unfold isUpperAZ at h
    rw [Bool.and_eq_true, decide_eq_true_eq, decide_eq_true_eq] at h
    unfold jsUpperChar
    rw [if_neg]
    intro hc
    rw [Bool.and_eq_true, decide_eq_true_eq, decide_eq_true_eq] at hc
    omega
  | inr h =>
    have h6 : c = ' ' ∨ c = '\t' ∨ c = '\n' ∨ c = '\x0b' ∨ c = '\x0c' ∨ c = '\r' := by
      unfold isJsSpace at h
      simp only [Bool.or_eq_true, decide_eq_true_eq] at h
      tauto
    rcases h6 with h | h | h | h | h | h <;> subst h <;> decide

theorem normList_idem (l : List Char) : normList (normList l) = normList l := by
  have hchars : ∀ c ∈ normList l, (isUpperAZ c || isJsSpace c) = true :=
    fun c hc => normList_chars hc
  have h1 : (normList l).map underscoreToSpace = normList l :=
    map_eq_self_of _ _ (fun c hc => underscore_fix c (hchars c hc))
  have h2 : (normList l).map jsUpperChar = normList l :=
    map_eq_self_of _ _ (fun c hc => upper_fix c (hchars c hc))
  have h3 : (normList l).filter (fun c => isUpperAZ c || isJsSpace c) = normList l :=
    List.filter_eq_self.mpr hchars
  show trimList ((((normList l).map underscoreToSpace).map jsUpperChar).filter
    (fun c => isUpperAZ c || isJsSpace c)) = normList l
  rw [h1, h2, h3]
  unfold normList
  exact trimList_idem _

theorem leadsWith_self_append : ∀ (p s : List Char), leadsWith p (p ++ s) = true
  | [], _ => rfl
  | q :: qs, s => by
    show (q == q && leadsWith qs (qs ++ s)) = true
    rw [beq_self_eq_true, leadsWith_self_append qs s]
    rfl

theorem hasSubstr_here : ∀ (p suf : List Char), hasSubstr p (p ++ suf) = true := by
  intro p suf
  cases p with
  | nil =>
    cases suf with
    | nil => rfl
    | cons c rest => show (leadsWith [] (c :: rest) || _) = true; rfl
  | cons q qs =>
    show (leadsWith (q :: qs) ((q :: qs) ++ suf) || _) = true
    rw [leadsWith_self_append]
    rfl

theorem hasSubstr_cons (x : Char) (p l : List Char) (h : hasSubstr p l = true) :
    hasSubstr p (x :: l) = true := by
  show (leadsWith p (x :: l) || hasSubstr p l) = true
  rw [h, Bool.or_true]

theorem hasSubstr_append_left : ∀ (A : List Char) (p l : List Char),
    hasSubstr p l = true → hasSubstr p (A ++ l) = true
  | [], _, _, h => h
  | x :: A', p, l, h => hasSubstr_cons x p (A' ++ l) (hasSubstr_append_left A' p l h)

theorem lookup_eq_none_of {β : Type} (l : List (String × β)) (k : String)
    (h : ∀ p ∈ l, p.1 ≠ k) : l.lookup k = none := by
  induction l with
  | nil => rfl
  | cons p t ih =>
    obtain ⟨a, b⟩ := p
    rw [List.lookup_cons]
    have hka : (k == a) = false :=
      beq_eq_false_iff_ne.mpr (fun he => h (a, b) (by simp) he.symm)
    rw [hka]
    exact ih (fun q hq => h q (by simp [hq]))

theorem lookup_some_mem {β : Type} (l : List (Nat × β)) (k : Nat) (v : β)
    (h : l.lookup k = some v) : (k, v) ∈ l := by
  induction l with
  | nil => simp [List.lookup] at h
  | cons p t ih =>
    obtain ⟨a, b⟩ := p
    rw [List.lookup_cons] at h
    cases hka : (k == a) with
    | true =>
      rw [hka] at h
      obtain rfl := Option.some.inj h
      have : k = a := beq_iff_eq.mp hka
      subst this
      simp
    | false =>
      rw [hka] at h
      exact List.mem_cons_of_mem _ (ih h)

theorem containsKey_mapSet (m : List (String × String)) (k v k' : String)
    (h : containsKey m k' = true) : containsKey (mapSet m k v) k' = true := by
  unfold mapSet
  by_cases hex : m.any (fun p => p.1 == k) = true
  · rw [if_pos hex]
    unfold containsKey at h ⊢
    rw [List.any_map]
    have hfun : ((fun p : String × String => p.1 == k') ∘
        (fun p : String × String => if p.1 == k then (k, v) else p)) =
        (fun p : String × String => p.1 == k') := by
      funext p
      by_cases hpk : (p.1 == k) = true
      · simp only [Function.comp_apply, if_pos hpk]
        rw [show p.1 = k from beq_iff_eq.mp hpk]
      · simp only [Function.comp_apply, if_neg hpk]
    rw [hfun]
    exact h
  · rw [if_neg hex]
    unfold containsKey at h ⊢
    rw [List.any_append, h]
    rfl

theorem containsKey_registerMeeting (m : List (String × String)) (mt : Meeting)
    (k' : String) (h : containsKey m k' = true) :
    containsKey (registerMeeting m mt) k' = true := by
  unfold registerMeeting
  have h1 := containsKey_mapSet m (normalizeString (some mt.country_name)) mt.country_name k' h
  have h2 : containsKey
      (match mt.location with
       | some loc => if loc = "" then mapSet m (normalizeString (some mt.country_name)) mt.country_name
          else mapSet (mapSet m (normalizeString (some mt.country_name)) mt.country_name)
            (normalizeString (some loc)) mt.country_name
       | none => mapSet m (normalizeString (some mt.country_name)) mt.country_name) k' = true := by
    cases mt.location with
    | none => exact h1
    | some loc =>
      by_cases hl : loc = ""
      · simp only [if_pos hl]; exact h1
      · simp only [if_neg hl]; exact containsKey_mapSet _ _ _ _ h1
  cases mt.meeting_name with
  | none => exact h2
  | some name =>
    by_cases hn : name = ""
    · simp only [if_pos hn]; exact h2
    · simp only [if_neg hn]
      have h3 := containsKey_mapSet _ (normalizeString (some name)) mt.country_name k' h2
      by_cases htok : firstToken name = ""
      · simp only [if_pos htok]; exact h3
      · simp only [if_neg htok]; exact containsKey_mapSet _ _ _ _ h3

theorem containsKey_foldl (ms : List Meeting) :
    ∀ (m : List (String × String)) (k' : String), containsKey m k' = true →
      containsKey (ms.foldl registerMeeting m) k' = true := by
  induction ms with
  | nil => intro m k' h; exact h
  | cons mt ms' ih =>
    intro m k' h
    exact ih _ _ (containsKey_registerMeeting m mt k' h)

theorem sorted_rel_getLast {α : Type} {r : α → α → Prop} (hrefl : ∀ a, r a a) :
    ∀ (m : List α) (hm : m ≠ []), List.Pairwise r m → ∀ t ∈ m, r t (m.getLast hm) := by
  intro m
  induction m with
  | nil => intro hm; exact absurd rfl hm
  | cons a l ihl =>
    intro hm hp t ht
    cases l with
    | nil =>
      rcases List.mem_singleton.mp ht with rfl
      exact hrefl t
    | cons b rest =>
      rw [List.getLast_cons (List.cons_ne_nil b rest)]
      rw [List.pairwise_cons] at hp
      rcases List.mem_cons.mp ht with rfl | htl
      · exact hp.1 _ (List.getLast_mem (List.cons_ne_nil b rest))
      · exact ihl (List.cons_ne_nil b rest) hp.2 t htl

instance : IsTotal Session sessionAsc := ⟨fun a b => le_total (sessionTime a) (sessionTime b)⟩

instance : IsTrans Session sessionAsc :=
  ⟨fun _ _ _ hab hbc => le_trans hab hbc⟩

theorem latestSessionKey_spec (l : List Session) (h : l ≠ []) :
    ∃ s ∈ l, latestSessionKey l = s.session_key ∧
      ∀ t ∈ l, sessionTime t ≤ sessionTime s := by
  have hperm := List.perm_insertionSort sessionAsc l
  have hm : l.insertionSort sessionAsc ≠ [] := by
    intro hnil
    apply h
    rw [← List.length_eq_zero, ← hperm.length_eq, hnil]
    rfl
  refine ⟨(l.insertionSort sessionAsc).getLast hm, ?_, ?_, ?_⟩
  · exact (List.mem_insertionSort sessionAsc).mp (List.getLast_mem hm)
  · unfold latestSessionKey
    rw [List.getLast?_eq_getLast _ hm]
    rfl
  · intro t ht
    exact sorted_rel_getLast (fun a => le_refl (sessionTime a)) _ hm
      (List.sorted_insertionSort sessionAsc l) t
      ((List.mem_insertionSort sessionAsc).mpr ht)

/-! ## Claim theorems -/

/-- C6: `normalizeString` is a pure total function; empty or absent input
yields the empty string; and it is idempotent: for every string `s`,
normalizing twice equals normalizing once. -/
theorem normalizeString_idempotent :
    normalizeString none = "" ∧ normalizeString (some "") = "" ∧
    ∀ s : String,
      normalizeString (some (normalizeString (some s))) = normalizeString (some s) := by
  refine ⟨rfl, rfl, fun s => ?_⟩
  by_cases hs : s = ""
  · subst hs; rfl
  · have hstep : normalizeString (some s) = ⟨normList s.data⟩ := by
      simp only [normalizeString, if_neg hs]
    rw [hstep]
    by_cases hn : (⟨normList s.data⟩ : String) = ""
    · rw [hn]; rfl
    · simp only [normalizeString, if_neg hn]
      show (⟨normList (normList s.data)⟩ : String) = _
      rw [normList_idem]

/-- Witness for C6 at a concrete input. -/
theorem normalizeString_idempotent_witness :
    normalizeString (some (normalizeString (some "  Abu-Dhabi 2024! "))) =
      normalizeString (some "  Abu-Dhabi 2024! ") :=
  normalizeString_idempotent.2.2 "  Abu-Dhabi 2024! "

/-- C7 counterexample: the short code `"S"` maps to the canonical label
`"Sprint"`, but the already-canonical names `"Sprint"` and `"Practice 1"`
do not map to themselves — they fall through to the `"Race"` default, so
not every already-canonical name maps to its canonical label. -/
theorem mapSessionType_sprint_counterexample :
    mapSessionType (some "S") = "Sprint" ∧ mapSessionType (some "Sprint") = "Race" ∧
    mapSessionType (some "Practice 1") = "Race" :=
  ⟨rfl, rfl, rfl⟩

/-- C7 (amended): the short codes `R`, `Q`, `FP1`, `FP2`, `FP3`, `S` and
the canonical names `Race` and `Qualifying` (case-insensitively, after
trimming) map to their canonical labels; every other input — including
the canonical names `Sprint` and `Practice 1/2/3` — and an absent code
map to `"Race"`. -/
theorem mapSessionType_spec :
    mapSessionType none = "Race" ∧
    mapSessionType (some "R") = "Race" ∧
    mapSessionType (some "Q") = "Qualifying" ∧
    mapSessionType (some "FP1") = "Practice 1" ∧
    mapSessionType (some "FP2") = "Practice 2" ∧
    mapSessionType (some "FP3") = "Practice 3" ∧
    mapSessionType (some "S") = "Sprint" ∧
    mapSessionType (some " race ") = "Race" ∧
    mapSessionType (some "Qualifying") = "Qualifying" ∧
    ∀ t : String, (∀ p ∈ sessionTypeMap, p.1 ≠ jsTrim (jsUpper t)) →
      mapSessionType (some t) = "Race" := by
  refine ⟨rfl, rfl, rfl, rfl, rfl, rfl, rfl, rfl, rfl, fun t ht => ?_⟩
  simp only [mapSessionType]
  by_cases h : t = ""
  · rw [if_pos h]
  · rw [if_neg h, lookup_eq_none_of _ _ ht]
    rfl

/-- Witness for C7's universal default clause at a concrete input. -/
theorem mapSessionType_spec_witness : mapSessionType (some "Shootout") = "Race" :=
  mapSessionType_spec.2.2.2.2.2.2.2.2.2 "Shootout" (by decide)

theorem monthMapGet_proto (key : String) (h : protoChainHit key = true) :
    monthMapGet key = some none := by
  unfold protoChainHit at h
  rw [Bool.or_eq_true] at h
  cases h with
  | inl h => rw [beq_iff_eq.mp h]; decide
  | inr h => rw [beq_iff_eq.mp h]; decide

/-- C10 counterexample: `"constructor"` (and `"__proto__"`) is no
recognized month name, abbreviation or digit form — it matches no key of
the month table — yet `filterByMonth` does not return the list
unchanged: the inherited `Object.prototype` value is not `undefined`, so
the handler filters with a strict equality that never holds and empties
the non-empty candidate list. -/
theorem filterByMonth_constructor_counterexample :
    (∀ p ∈ monthMap, p.1 ≠ jsTrim (jsLower "constructor")) ∧
    (∀ p ∈ monthMap, p.1 ≠ jsTrim (jsLower "__proto__")) ∧
    filterByMonth [sessJan, sessMar] "constructor" = [] ∧
    filterByMonth [sessJan, sessMar] "__proto__" = [] :=
  ⟨by decide, by decide, by decide, by decide⟩

/-- C10 (amended): when the lowercased, trimmed month input matches no
key of the month table (no recognized month name, abbreviation,
one-digit or two-digit number) *and* is neither of the two reachable
inherited `Object.prototype` names `constructor` and `__proto__`,
`filterByMonth` returns the input list unchanged; for those two
inherited names the inherited value is not `undefined` and the
always-false strict comparison instead empties the list. -/
theorem filterByMonth_unrecognized_noop :
    (∀ (data : List Session) (m : String),
       (∀ p ∈ monthMap, p.1 ≠ jsTrim (jsLower m)) →
       protoChainHit (jsTrim (jsLower m)) = false →
       filterByMonth data m = data) ∧
    (∀ (data : List Session) (m : String),
       protoChainHit (jsTrim (jsLower m)) = true →
       filterByMonth data m = []) := by
  constructor
  · intro data m hm hp
    simp only [filterByMonth]
    by_cases h : m = ""
    · rw [if_pos h]
    · rw [if_neg h]
      have hget : monthMapGet (jsTrim (jsLower m)) = none := by
        unfold monthMapGet
        rw [lookup_eq_none_of _ _ hm]
        dsimp only
        rw [if_neg]
        intro hc
        rw [hp] at hc
        cases hc
      rw [hget]
  · intro data m hp
    have hne : m ≠ "" := by
      intro h
      subst h
      rw [show jsTrim (jsLower "") = "" from rfl] at hp
      cases hp
    simp only [filterByMonth]
    rw [if_neg hne, monthMapGet_proto _ hp]
    dsimp only
    rw [List.filter_eq_nil_iff]
    intro item _ hitem
    cases hd : item.date_start with
    | none => rw [hd] at hitem; cases hitem
    | some d => rw [hd] at hitem; cases hitem

/-- Witness for C10's no-op clause at a concrete unrecognized input. -/
theorem filterByMonth_unrecognized_noop_witness :
    filterByMonth [sessJan, sessMar] "sometime" = [sessJan, sessMar] :=
  filterByMonth_unrecognized_noop.1 [sessJan, sessMar] "sometime"
    (by decide) (by decide)

theorem leadsWith_append_right : ∀ (p s t : List Char),
    leadsWith p s = true → leadsWith p (s ++ t) = true
  | [], _, _, _ => rfl
  | q :: qs, [], _, h => by cases h
  | q :: qs, c :: cs, t, h => by
    show (q == c && leadsWith qs (cs ++ t)) = true
    have h2 : (q == c && leadsWith qs cs) = true := h
    rw [Bool.and_eq_true] at h2 ⊢
    exact ⟨h2.1, leadsWith_append_right qs cs t h2.2⟩

theorem hasSubstr_nil_pat : ∀ l : List Char, hasSubstr [] l = true
  | [] => rfl
  | _ :: _ => rfl

theorem hasSubstr_append_right : ∀ (s t p : List Char),
    hasSubstr p s = true → hasSubstr p (s ++ t) = true
  | [], t, p, h => by
    have hp : p = [] := by
      cases p with
      | nil => rfl
      | cons q qs => exact absurd h (by simp [hasSubstr, List.isEmpty])
    subst hp
    exact hasSubstr_nil_pat t
  | c :: rest, t, p, h => by
    show (leadsWith p (c :: (rest ++ t)) || hasSubstr p (rest ++ t)) = true
    have h2 : (leadsWith p (c :: rest) || hasSubstr p rest) = true := h
    rw [Bool.or_eq_true] at h2 ⊢
    cases h2 with
    | inl hl => exact Or.inl (leadsWith_append_right p (c :: rest) t hl)
    | inr hr => exact Or.inr (hasSubstr_append_right rest t p hr)

theorem strIncludes_self (s : String) : strIncludes s s = true := by
  unfold strIncludes
  have h := hasSubstr_here s.data []
  rwa [List.append_nil] at h

theorem strIncludes_append_right (s t pat : String)
    (h : strIncludes s pat = true) : strIncludes (s ++ t) pat = true := by
  unfold strIncludes at h ⊢
  rw [String.data_append]
  exact hasSubstr_append_right s.data t.data pat.data h

theorem strIncludes_append_left_str (s t pat : String)
    (h : strIncludes t pat = true) : strIncludes (s ++ t) pat = true := by
  unfold strIncludes at h ⊢
  rw [String.data_append]
  exact hasSubstr_append_left s.data pat.data t.data h

theorem isEmpty_false_of_ne_nil {α : Type} {l : List α} (h : l ≠ []) :
    l.isEmpty = false := by
  cases l with
  | nil => exact absurd rfl h
  | cons a t => rfl

theorem getSessionKey_eq_ok (sessions : List Session) (country : String)
    (ty : Option String) (year : Nat) (month : Option String)
    (h1 : sessions.isEmpty = false)
    (h2 : (monthSurvivors sessions month).isEmpty = false) :
    getSessionKey sessions country ty year month =
      .ok (latestSessionKey (monthSurvivors sessions month)) := by
  unfold getSessionKey
  simp [h1, h2]

theorem getSessionKey_eq_month_error (sessions : List Session) (country : String)
    (ty : Option String) (year : Nat) (m : String)
    (h1 : sessions.isEmpty = false)
    (h2 : (monthSurvivors sessions (some m)).isEmpty = true) :
    getSessionKey sessions country ty year (some m) =
      .error ("Failed to locate session: No sessions found in " ++ m ++ " for " ++
        country ++ " in year " ++ toString year ++ ".") := by
  unfold getSessionKey
  simp [h1, h2]

/-- C4 counterexample: a candidate list that the month filter empties
produces an error that names the month, the country and the year but not
the attempted session type — the label `"Race"` (for the attempted code
`"R"`) occurs nowhere in it — so the error does not identify the full
country/type/year combination the claim requires. -/
theorem getSessionKey_month_error_counterexample :
    getSessionKey [sessJan] "Belgium" (some "R") 2024 (some "feb") =
      Except.error
        "Failed to locate session: No sessions found in feb for Belgium in year 2024." ∧
    mapSessionType (some "R") = "Race" ∧
    strIncludes
      "Failed to locate session: No sessions found in feb for Belgium in year 2024."
      "Race" = false :=
  ⟨rfl, rfl, by decide⟩

/-- C4 (amended): for every non-empty candidate list surviving the
optional month filter, `getSessionKey` returns the session key of a
surviving candidate with the latest start timestamp; an empty fetch
result yields an error naming the country, the mapped session type and
the year; a month filter that empties the list yields an error naming
the month, the country and the year (but not the session type). -/
theorem getSessionKey_spec :
    (∀ (sessions : List Session) (country : String) (ty : Option String)
       (year : Nat) (month : Option String),
       sessions ≠ [] → monthSurvivors sessions month ≠ [] →
       ∃ s ∈ monthSurvivors sessions month,
         getSessionKey sessions country ty year month = .ok s.session_key ∧
         ∀ t ∈ monthSurvivors sessions month, sessionTime t ≤ sessionTime s) ∧
    (∀ (country : String) (ty : Option String) (year : Nat) (month : Option String),
       ∃ e, getSessionKey [] country ty year month = .error e ∧
         strIncludes e country = true ∧ strIncludes e (mapSessionType ty) = true ∧
         strIncludes e (toString year) = true) ∧
    (∀ (sessions : List Session) (country : String) (ty : Option String)
       (year : Nat) (m : String),
       sessions ≠ [] → m ≠ "" → filterByMonth sessions m = [] →
       ∃ e, getSessionKey sessions country ty year (some m) = .error e ∧
         strIncludes e m = true ∧ strIncludes e country = true ∧
         strIncludes e (toString year) = true) := by
  refine ⟨?_, ?_, ?_⟩
  · intro sessions country ty year month h1 h2
    obtain ⟨s, hs, hkey, hmax⟩ := latestSessionKey_spec (monthSurvivors sessions month) h2
    refine ⟨s, hs, ?_, hmax⟩
    rw [getSessionKey_eq_ok sessions country ty year month
      (isEmpty_false_of_ne_nil h1) (isEmpty_false_of_ne_nil h2), hkey]
  · intro country ty year month
    refine ⟨_, rfl, ?_, ?_, ?_⟩
    · apply strIncludes_append_right
      apply strIncludes_append_right
      apply strIncludes_append_right
      apply strIncludes_append_right
      apply strIncludes_append_right
      exact strIncludes_append_left_str _ _ _ (strIncludes_self country)
    · apply strIncludes_append_right
      apply strIncludes_append_right
      apply strIncludes_append_right
      exact strIncludes_append_left_str _ _ _ (strIncludes_self (mapSessionType ty))
    · apply strIncludes_append_right
      exact strIncludes_append_left_str _ _ _ (strIncludes_self (toString year))
  · intro sessions country ty year m h1 hm hfm
    have hsurv : (monthSurvivors sessions (some m)).isEmpty = true := by
      simp only [monthSurvivors, if_neg hm]
      rw [hfm]
      rfl
    refine ⟨_, getSessionKey_eq_month_error sessions country ty year m
      (isEmpty_false_of_ne_nil h1) hsurv, ?_, ?_, ?_⟩
    · apply strIncludes_append_right
      apply strIncludes_append_right
      apply strIncludes_append_right
      apply strIncludes_append_right
      apply strIncludes_append_right
      exact strIncludes_append_left_str _ _ _ (strIncludes_self m)
    · apply strIncludes_append_right
      apply strIncludes_append_right
      apply strIncludes_append_right
      exact strIncludes_append_left_str _ _ _ (strIncludes_self country)
    · apply strIncludes_append_right
      exact strIncludes_append_left_str _ _ _ (strIncludes_self (toString year))

/-- Witness for C4 at a concrete candidate list (no month filter): the
March session (key 202, the later timestamp) is selected. -/
theorem getSessionKey_spec_witness :
    ∃ s ∈ monthSurvivors [sessJan, sessMar] none,
      getSessionKey [sessJan, sessMar] "Belgium" (some "R") 2024 none =
        .ok s.session_key ∧
      ∀ t ∈ monthSurvivors [sessJan, sessMar] none, sessionTime t ≤ sessionTime s :=
  getSessionKey_spec.1 [sessJan, sessMar] "Belgium" (some "R") 2024 none
    (by decide) (by decide)

theorem find?_congr_mem {α : Type} (p q : α → Bool) :
    ∀ l : List α, (∀ x ∈ l, p x = q x) → l.find? p = l.find? q
  | [], _ => rfl
  | a :: t, h => by
    rw [List.find?_cons, List.find?_cons, h a (List.mem_cons_self a t)]
    cases hq : q a with
    | false => exact find?_congr_mem p q t (fun x hx => h x (List.mem_cons_of_mem a hx))
    | true => rfl

theorem driverMatches_eq_spec (needle : String) (d : Driver)
    (hd : driverComplete d = true) :
    driverMatches needle d = specDriverMatch needle d := by
  obtain ⟨ao, no, lo, fo⟩ := d
  cases ao with
  | none => simp [driverComplete] at hd
  | some a =>
    cases no with
    | none => simp [driverComplete] at hd
    | some n =>
      cases lo with
      | none => simp [driverComplete] at hd
      | some ln =>
        cases fo with
        | none => simp [driverComplete] at hd
        | some fn =>
          simp only [driverComplete, Bool.and_eq_true] at hd
          obtain ⟨⟨⟨ha, hn⟩, hl⟩, hf⟩ := hd
          simp only [driverMatches, specDriverMatch, Option.getD, ha, hn, hl, hf,
            Bool.true_and]

/-- C5: the driver resolver lowercases and trims the token and returns
the driver number of the first roster entry matching by exact acronym,
exact car-number string, surname substring or full-name substring; on
the Verstappen roster the inputs "ver", "1", "verstappen" and
"Max Verstappen" all resolve to driver 1, and a token matching nothing
yields `none` rather than an error. -/
theorem resolveDriverNumber_spec :
    (∀ (roster : List Driver) (input : String), input ≠ "" →
       (∀ d ∈ roster, driverComplete d = true) →
       resolveDriverNumber roster input =
         (roster.find? (specDriverMatch (driverNeedle input))).bind Driver.driver_number) ∧
    resolveDriverNumber rosterEx "ver" = some 1 ∧
    resolveDriverNumber rosterEx "1" = some 1 ∧
    resolveDriverNumber rosterEx "verstappen" = some 1 ∧
    resolveDriverNumber rosterEx "Max Verstappen" = some 1 ∧
    resolveDriverNumber rosterEx "ricciardo" = none := by
  refine ⟨?_, by decide, by decide, by decide, by decide, by decide⟩
  intro roster input hi hall
  unfold resolveDriverNumber
  rw [if_neg hi,
    find?_congr_mem _ _ roster (fun d hd => driverMatches_eq_spec _ d (hall d hd))]

/-- Witness for C5's universal clause at a concrete roster and input. -/
theorem resolveDriverNumber_spec_witness :
    resolveDriverNumber rosterEx "VER" =
      (rosterEx.find? (specDriverMatch (driverNeedle "VER"))).bind Driver.driver_number :=
  resolveDriverNumber_spec.1 rosterEx "VER" (by decide) (by decide)

/-- C9: every map handed out by the location-map builder — for any year,
any cache state satisfying the invariant, and any upstream response
(including a failed fetch) — contains every alias key of the static
default table, and the cache only ever stores such maps: the builder
only adds entries and never removes a default alias. -/
theorem locationMap_superset_defaults :
    ∀ (cache : List (Nat × List (String × String))) (year : Nat)
      (response : Option (List Meeting)),
      cacheHasDefaults cache →
      (∀ k : String, containsKey staticDefaultAliases k = true →
        containsKey (fetchAndBuildLocationMap cache year response).1 k = true) ∧
      cacheHasDefaults (fetchAndBuildLocationMap cache year response).2 := by
  intro cache year response hinv
  unfold fetchAndBuildLocationMap
  cases hlook : cache.lookup year with
  | some m =>
    exact ⟨fun k hk => hinv (year, m) (lookup_some_mem cache year m hlook) k hk, hinv⟩
  | none =>
    cases response with
    | none => exact ⟨fun k hk => hk, hinv⟩
    | some ms =>
      dsimp only
      by_cases hempty : ms.isEmpty = true
      · rw [if_pos hempty]
        exact ⟨fun k hk => hk, hinv⟩
      · rw [if_neg hempty]
        refine ⟨fun k hk => containsKey_foldl ms _ k hk, ?_⟩
        intro e he k hk
        rcases List.mem_cons.mp he with rfl | hold
        · exact containsKey_foldl ms _ k hk
        · exact hinv e hold k hk

/-- Witness for C9: a fetch failure on an empty cache still yields a map
containing the default alias "SPA". -/
theorem locationMap_superset_defaults_witness :
    containsKey (fetchAndBuildLocationMap [] 2024 none).1 "SPA" = true :=
  (locationMap_superset_defaults [] 2024 none
    (fun e he => absurd he (List.not_mem_nil e))).1 "SPA" (by decide)

/-- C3: for every lap N > 1 and every lap dataset, each reported change
row belongs to a driver present in both the lap-N and lap-(N−1)
leaderboards (ranked ascending by `lap_start + lap_duration`), and its
`positions_gained` equals position(N−1) − position(N); a lap number ≤ 1
is rejected; and on the fixture with lap-1 ranking [1,2,3] and lap-2
ranking [2,1,3], driver 1 gains −1, driver 2 gains +1, driver 3 gains 0,
while drivers missing from either snapshot are excluded. -/
theorem position_change_between_laps :
    (∀ (allLaps : List Lap) (lapNumber : Nat) (cs : List PositionChange)
       (e : PositionChange), 1 < lapNumber →
       position_change_lap allLaps lapNumber = .ok cs → e ∈ cs →
       posLookup (getLeaderboard allLaps (lapNumber - 1)) e.driver_number =
         some e.lap_start_pos ∧
       posLookup (getLeaderboard allLaps lapNumber) e.driver_number =
         some e.lap_end_pos ∧
       e.positions_gained = (e.lap_start_pos : Int) - (e.lap_end_pos : Int)) ∧
    (∀ (allLaps : List Lap) (lapNumber : Nat), lapNumber ≤ 1 →
       position_change_lap allLaps lapNumber =
         .error "Cannot calculate changes for Lap 1.") ∧
    gainedOf exLaps 2 1 = some (-1) ∧ gainedOf exLaps 2 2 = some 1 ∧
    gainedOf exLaps 2 3 = some 0 ∧ gainedOf exLaps 2 4 = none ∧
    gainedOf exLaps 2 5 = none := by
  refine ⟨?_, ?_, by decide, by decide, by decide, by decide, by decide⟩
  · intro allLaps lapNumber cs e hlt hok hmem
    unfold position_change_lap at hok
    rw [if_neg (by omega)] at hok
    have hX := Except.ok.inj hok
    subst hX
    rw [List.mem_insertionSort, List.mem_filterMap] at hmem
    obtain ⟨d, _, hfd⟩ := hmem
    cases h1 : posLookup (getLeaderboard allLaps (lapNumber - 1)) d with
    | none => rw [h1] at hfd; simp at hfd
    | some pp =>
      cases h2 : posLookup (getLeaderboard allLaps lapNumber) d with
      | none => rw [h1, h2] at hfd; simp at hfd
      | some pc =>
        rw [h1, h2] at hfd
        dsimp only at hfd
        have he := Option.some.inj hfd
        subst he
        exact ⟨h1, h2, rfl⟩
  · intro allLaps lapNumber hle
    unfold position_change_lap
    rw [if_pos hle]

/-- Witness for C3's universal clause: driver 2 of the fixture, read off
the result list `csEx`. -/
theorem position_change_between_laps_witness :
    posLookup (getLeaderboard exLaps 1) (2 : Nat) = some 2 ∧
    posLookup (getLeaderboard exLaps 2) (2 : Nat) = some 1 ∧
    (1 : Int) = ((2 : Nat) : Int) - ((1 : Nat) : Int) :=
  position_change_between_laps.1 exLaps 2 csEx
    { driver_number := 2, lap_start_pos := 2, lap_end_pos := 1, positions_gained := 1 }
    (by omega) rfl (by decide)

/-- C8 counterexample: a same-driver stint whose lap range [5, 20]
contains the stop's lap 20 (well within ±1), which the spec-worded join
therefore matches, yet the handler reports "Unknown" because the stint's
*start* lap is 15 laps away from the stop. -/
theorem pitstop_join_ignores_lap_end :
    (stintEx.driver_number = pitEx.driver_number ∧
     stintEx.lap_start - 1 ≤ pitEx.lap_number ∧
     pitEx.lap_number ≤ stintEx.lap_end + 1) ∧
    specStintJoin [stintEx] pitEx = some stintEx ∧
    stintEx.compound = some "HARD" ∧
    pitstops_rows [pitEx] (some [stintEx]) =
      [{ driver_number := 1, lap := 20, duration := some 24,
         tyres_fitted := "Unknown" }] :=
  ⟨by decide, rfl, rfl, rfl⟩

/-- C8 (amended): each pit stop is joined to the first stint of the same
driver whose *starting* lap is within ±1 of the stop's lap number; a
found stint's compound is reported (degrading to "Unknown" when the
compound is absent/empty), every unmatched stop reports "Unknown", and a
failed stints fetch degrades every stop to "Unknown" instead of failing
the request. -/
theorem pitstop_join_spec :
    (∀ (stints : List Stint) (p : PitStop) (s : Stint),
       pitStintJoin stints p = some s →
       s ∈ stints ∧ s.driver_number = p.driver_number ∧
       (s.lap_start - p.lap_number).natAbs ≤ 1) ∧
    (∀ (stints : List Stint) (p : PitStop) (s : Stint), s ∈ stints →
       s.driver_number = p.driver_number →
       (s.lap_start - p.lap_number).natAbs ≤ 1 →
       pitStintJoin stints p ≠ none) ∧
    (∀ (stints : List Stint) (p : PitStop),
       pitStintJoin stints p = none → tyreFitted (some stints) p = "Unknown") ∧
    (∀ (stints : List Stint) (p : PitStop) (s : Stint) (c : String),
       pitStintJoin stints p = some s → s.compound = some c → c ≠ "" →
       tyreFitted (some stints) p = c) ∧
    (∀ (pits : List PitStop) (stintsFetched : Option (List Stint)),
       pitstops_rows pits stintsFetched = pits.map (fun p =>
         { driver_number := p.driver_number, lap := p.lap_number,
           duration := p.pit_duration, tyres_fitted := tyreFitted stintsFetched p })) ∧
    (∀ (p : PitStop), tyreFitted none p = "Unknown") := by
  refine ⟨?_, ?_, ?_, ?_, fun _ _ => rfl, fun _ => rfl⟩
  · intro stints p s hj
    refine ⟨List.mem_of_find?_eq_some hj, ?_⟩
    have hp := List.find?_some hj
    rw [Bool.and_eq_true] at hp
    exact ⟨beq_iff_eq.mp hp.1, by simpa using hp.2⟩
  · intro stints p s hmem hdrv htol hnone
    unfold pitStintJoin at hnone
    rw [List.find?_eq_none] at hnone
    apply hnone s hmem
    rw [Bool.and_eq_true]
    exact ⟨beq_iff_eq.mpr hdrv, by simpa using htol⟩
  · intro stints p hj
    unfold tyreFitted
    dsimp only
    rw [hj]
  · intro stints p s c hj hc hne
    unfold tyreFitted
    dsimp only
    rw [hj]
    dsimp only
    rw [hc]
    dsimp only
    rw [if_neg hne]

/-- Witness for C8: the stop at lap 20 joins to a stint starting at
lap 21 (tolerance 1). -/
theorem pitstop_join_spec_witness : pitStintJoin [stintNear] pitEx ≠ none :=
  pitstop_join_spec.2.1 [stintNear] pitEx stintNear (by decide) (by decide) (by decide)

theorem rcKeep_eq (driverNum : Nat) (dAcr dName : String) (m : RCMessage) :
    rcKeep driverNum dAcr dName m =
      (rcTargetDriverEvent driverNum dAcr dName m ||
        (!rcDriverTruthy m && isGlobalRCEvent m)) := by
  unfold rcKeep
  cases hA : rcTargetDriverEvent driverNum dAcr dName m
  · cases hT : rcDriverTruthy m <;> simp [hT]
  · simp

/-- C1 counterexample: the claim's synthetic message is *attributed to
driver 1* (`driver_number: 1`), so the driver-number-field route retains
it when filtering for driver "1" regardless of its "CAR 18" text —
contradicting the claim that filtering for "1" must not include it. -/
theorem race_control_car18_attributed_retained :
    race_control_driver_stage rosterEx (some "1") [msgCar18Attr1] =
      Except.ok [msgCar18Attr1] := rfl

/-- C1 (amended): under a driver filter, a message attributed to a
different driver is retained exactly when a textual route fires, and the
`car <number>` textual route is whole-word: "car 1" occurs in
"car 18 yellow flag" as a plain substring but not at a word boundary.
For the message with text "CAR 18 yellow flag" attributed to driver 18,
filtering for driver "1" excludes it and filtering for "18" includes it. -/
theorem race_control_word_boundary :
    (∀ (driverNum : Nat) (dAcr dName : String) (m : RCMessage),
       m.driver_number ≠ some driverNum →
       strIncludes (rcMsgLower m) ("(" ++ dAcr ++ ")") = false →
       strIncludes (rcMsgLower m) dName = false →
       rcDriverTruthy m = true →
       rcKeep driverNum dAcr dName m = carRegexMatch driverNum (rcMsgLower m)) ∧
    strIncludes (jsLower "CAR 18 yellow flag") "car 1" = true ∧
    carRegexMatch 1 (jsLower "CAR 18 yellow flag") = false ∧
    carRegexMatch 18 (jsLower "CAR 18 yellow flag") = true ∧
    race_control_driver_stage rosterEx (some "1") [msgCar18] = Except.ok [] ∧
    race_control_driver_stage rosterEx (some "18") [msgCar18] =
      Except.ok [msgCar18] := by
  refine ⟨?_, by decide, by decide, by decide, rfl, rfl⟩
  intro driverNum dAcr dName m h1 h2 h3 h4
  rw [rcKeep_eq]
  unfold rcTargetDriverEvent
  rw [beq_eq_false_iff_ne.mpr h1, h2, h3, h4]
  simp

/-- Witness for C1's universal clause at the fixture message. -/
theorem race_control_word_boundary_witness :
    rcKeep 1 "ver" "verstappen" msgCar18 = carRegexMatch 1 (rcMsgLower msgCar18) :=
  race_control_word_boundary.1 1 "ver" "verstappen" msgCar18
    (by decide) (by decide) (by decide) (by decide)

/-- C2 counterexample: an undirected message that merely contains the
filtered driver's surname is retained by the filter although it is not a
recognized session-wide event — refuting the claimed "retained if and
only if global event" for undirected messages. -/
theorem race_control_undirected_surname_retained :
    race_control_driver_stage rosterEx (some "1") [msgUndirSurname] =
      Except.ok [msgUndirSurname] ∧
    isGlobalRCEvent msgUndirSurname = false ∧
    msgUndirSurname.driver_number = none :=
  ⟨rfl, by decide, rfl⟩

/-- C2 (amended): an undirected message that matches none of the
driver-specific textual routes is retained iff it is a recognized
session-wide event (keyword, category code, or allowed flag colour); an
undirected "SafetyCar"-category message is retained under any driver
filter; an undirected generic "blue flag" message is not a global event
and is excluded under a driver filter. -/
theorem race_control_global_passthrough :
    (∀ (driverNum : Nat) (dAcr dName : String) (m : RCMessage),
       m.driver_number = none →
       carRegexMatch driverNum (rcMsgLower m) = false →
       strIncludes (rcMsgLower m) ("(" ++ dAcr ++ ")") = false →
       strIncludes (rcMsgLower m) dName = false →
       rcKeep driverNum dAcr dName m = isGlobalRCEvent m) ∧
    (∀ (driverNum : Nat) (dAcr dName : String),
       rcKeep driverNum dAcr dName msgSC = true) ∧
    race_control_driver_stage rosterEx (some "18") [msgSC, msgBlue] =
      Except.ok [msgSC] ∧
    isGlobalRCEvent msgBlue = false ∧ msgBlue.driver_number = none := by
  refine ⟨?_, ?_, rfl, by decide, rfl⟩
  · intro driverNum dAcr dName m h0 hc ha hn
    rw [rcKeep_eq]
    unfold rcTargetDriverEvent rcDriverTruthy
    rw [h0, hc, ha, hn]
    simp
  · intro driverNum dAcr dName
    rw [rcKeep_eq]
    have hg : isGlobalRCEvent msgSC = true := by decide
    have ht : rcDriverTruthy msgSC = false := rfl
    rw [hg, ht]
    simp

/-- Witness for C2's universal clause at the fixture blue-flag message. -/
theorem race_control_global_passthrough_witness :
    rcKeep 18 "str" "stroll" msgBlue = isGlobalRCEvent msgBlue :=
  race_control_global_passthrough.1 18 "str" "stroll" msgBlue
    rfl (by decide) (by decide) (by decide)
